import Mathlib

/-!
Verification development for the task-management REST service
(`task-management-api`): a shallow embedding of the repository layer
(`repository/task_repository.go`), the service layer
(`service/task_service.go`), the HTTP handler's pagination parsing
(`handler/task_handler.go`), and the background auto-completion worker
(`service/worker.go`).

The Mongo collection is embedded as a `List Task`; Mongo queries become
filters over that list, Mongo sorts become `List.insertionSort`, and
`UpdateOne`/`DeleteOne` (which act on at most one document, here the first
match) become first-match rewriting.  Timestamps are `Int` time stamps in
abstract units, so `time.Now().Add(-window)` is plain subtraction.
Go's `int` division and remainder (truncation toward zero) are
`Int.tdiv` and `Int.tmod`.  Functions that in Go return `error` return
`Except`; the one runtime panic reachable in the service layer
(integer division by zero in `ListTasks`) is made explicit as `GoPanic`.
-/

namespace TaskApi

/-- The closed task-status enum of `models.go` (`pending`, `in_progress`,
`completed`). -/
inductive TaskStatus where
  | pending
  | inProgress
  | completed
deriving DecidableEq

/-- The user-role enum of `models.go` (`user`, `admin`). -/
inductive UserRole where
  | user
  | admin
deriving DecidableEq

/-- A task record (`models.Task`).  `id` stands for the Mongo ObjectID. -/
structure Task where
  id : Nat
  userID : Nat
  title : String
  description : String
  status : TaskStatus
  createdAt : Int
  updatedAt : Int
deriving DecidableEq

/-- A user (`models.User`); only the fields the task paths read. -/
structure User where
  id : Nat
  email : String
  username : String
  role : UserRole
deriving DecidableEq

/-- `repository.TaskFilter`: optional status filter plus page/limit,
Go `int` fields embedded as `Int`. -/
structure TaskFilter where
  status : Option TaskStatus
  page : Int
  limit : Int
deriving DecidableEq

deriving instance DecidableEq for Except

/-- Errors surfaced by the repository layer (`"task not found"`). -/
inductive RepoError where
  | notFound
deriving DecidableEq

/-- The Mongo `tasks` collection, embedded as a list of documents. -/
abbrev Store := List Task

/-- Ascending creation-time order (`bson.D{{"created_at", 1}}`). -/
def createdAscend (a b : Task) : Prop := a.createdAt ≤ b.createdAt

instance : DecidableRel createdAscend := fun a b => Int.decLe a.createdAt b.createdAt

instance : IsTotal Task createdAscend := ⟨fun a b => Int.le_total a.createdAt b.createdAt⟩

instance : IsTrans Task createdAscend := ⟨fun _ _ _ h h' => Int.le_trans h h'⟩

/-- Descending creation-time order (`bson.D{{"created_at", -1}}`). -/
def createdDescend (a b : Task) : Prop := b.createdAt ≤ a.createdAt

instance : DecidableRel createdDescend := fun a b => Int.decLe b.createdAt a.createdAt

instance : IsTotal Task createdDescend := ⟨fun a b => Int.le_total b.createdAt a.createdAt⟩

instance : IsTrans Task createdDescend := ⟨fun _ _ _ h h' => Int.le_trans h' h⟩

/-- `TaskRepository.FindByID`: `FindOne` on `_id`, `ErrNoDocuments`
becomes `"task not found"`. -/
def findByID (store : Store) (id : Nat) : Except RepoError Task :=
  match store.find? (fun t => decide (t.id = id)) with
  | some t => Except.ok t
  | none => Except.error RepoError.notFound

/-- The optional status clause of the Mongo query
(`query["status"] = *filter.Status` when present). -/
def statusMatches (fs : Option TaskStatus) (t : Task) : Bool :=
  match fs with
  | none => true
  | some s => decide (t.status = s)

/-- The Mongo query of `FindByUserID`:
`bson.M{"user_id": userID}` plus the optional status clause. -/
def userQuery (userID : Nat) (fs : Option TaskStatus) (t : Task) : Bool :=
  decide (t.userID = userID) && statusMatches fs t

/-- `TaskRepository.FindByUserID`: counts the query's matches, applies the
pagination defaults to its own by-value copy of the filter, and returns
the window `skip = (page-1)*limit`, `limit` of the matches sorted by
creation time descending, together with the total count. -/
def findByUserID (store : Store) (userID : Nat) (filter : TaskFilter) :
    List Task × Nat :=
  let query := store.filter (userQuery userID filter.status)
  let totalCount := query.length
  let page := if filter.page < 1 then 1 else filter.page
  let limit := if filter.limit < 1 then 10 else filter.limit
  let skip := (page - 1) * limit
  let sorted := List.insertionSort createdDescend query
  (((sorted.drop skip.toNat).take limit.toNat), totalCount)

/-- `TaskRepository.FindAll`: same as `FindByUserID` without the owner
clause (reserved for admin callers). -/
def findAll (store : Store) (filter : TaskFilter) : List Task × Nat :=
  let query := store.filter (statusMatches filter.status)
  let totalCount := query.length
  let page := if filter.page < 1 then 1 else filter.page
  let limit := if filter.limit < 1 then 10 else filter.limit
  let skip := (page - 1) * limit
  let sorted := List.insertionSort createdDescend query
  (((sorted.drop skip.toNat).take limit.toNat), totalCount)

/-- Rewrite of the first document matching `_id = id` by `UpdateOne`'s
`$set` of `status` and `updated_at`. -/
def setStatusFirst : Store → Nat → TaskStatus → Int → Store
  | [], _, _, _ => []
  | t :: ts, id, st, now =>
    if t.id = id then { t with status := st, updatedAt := now } :: ts
    else t :: setStatusFirst ts id st now

/-- `TaskRepository.UpdateStatus`: `UpdateOne({_id: id}, {$set: {status,
updated_at: time.Now()}})`; `MatchedCount == 0` becomes
`"task not found"`. -/
def updateStatus (store : Store) (id : Nat) (st : TaskStatus) (now : Int) :
    Except RepoError Store :=
  if store.any (fun t => decide (t.id = id)) then
    Except.ok (setStatusFirst store id st now)
  else Except.error RepoError.notFound

/-- Removal of the first document matching `_id = id` by `DeleteOne`. -/
def removeFirst : Store → Nat → Store
  | [], _ => []
  | t :: ts, id => if t.id = id then ts else t :: removeFirst ts id

/-- `TaskRepository.Delete`: `DeleteOne({_id: id})`; `DeletedCount == 0`
becomes `"task not found"`. -/
def deleteByID (store : Store) (id : Nat) : Except RepoError Store :=
  if store.any (fun t => decide (t.id = id)) then
    Except.ok (removeFirst store id)
  else Except.error RepoError.notFound

/-- Eligibility predicate of the scan query in `FindPendingTasks`:
`status ∈ {pending, in_progress}` and `created_at < olderThan`. -/
def eligibleB (olderThan : Int) (t : Task) : Bool :=
  decide ((t.status = TaskStatus.pending ∨ t.status = TaskStatus.inProgress)
    ∧ t.createdAt < olderThan)

/-- `TaskRepository.FindPendingTasks`: the scan query
`{status: {$in: [pending, in_progress]}, created_at: {$lt: olderThan}}`
sorted by `created_at` ascending. -/
def findPendingTasks (store : Store) (olderThan : Int) : List Task :=
  List.insertionSort createdAscend (store.filter (eligibleB olderThan))

/-- Errors surfaced by `TaskService.GetTask` / `TaskService.DeleteTask`:
the repository's `"task not found"` and the distinct
`"unauthorized ..."` authorization error. -/
inductive ServiceError where
  | notFound
  | unauthorized
deriving DecidableEq

/-- `TaskService.GetTask`: fetch by id, then the post-fetch ownership
check (`user.Role != Admin && task.UserID != user.ID` is rejected as
unauthorized). -/
def getTask (store : Store) (taskID : Nat) (user : User) :
    Except ServiceError Task :=
  match findByID store taskID with
  | Except.error _ => Except.error ServiceError.notFound
  | Except.ok task =>
    if user.role ≠ UserRole.admin ∧ task.userID ≠ user.id then
      Except.error ServiceError.unauthorized
    else Except.ok task

/-- `TaskService.DeleteTask`: fetch by id, the same post-fetch ownership
check, then the repository delete. -/
def deleteTask (store : Store) (taskID : Nat) (user : User) :
    Except ServiceError Store :=
  match findByID store taskID with
  | Except.error _ => Except.error ServiceError.notFound
  | Except.ok task =>
    if user.role ≠ UserRole.admin ∧ task.userID ≠ user.id then
      Except.error ServiceError.unauthorized
    else
      match deleteByID store taskID with
      | Except.error _ => Except.error ServiceError.notFound
      | Except.ok store' => Except.ok store'

/-- The one Go runtime panic reachable in `TaskService.ListTasks`:
integer division by zero. -/
inductive GoPanic where
  | divideByZero
deriving DecidableEq

/-- `models.TaskListResponse`. -/
structure TaskListResponse where
  tasks : List Task
  page : Int
  limit : Int
  totalCount : Nat
  totalPages : Int
deriving DecidableEq

/-- The total-pages computation of `TaskService.ListTasks`:
`totalPages := int(totalCount) / filter.Limit` followed by the remainder
bump `if int(totalCount)%filter.Limit > 0 { totalPages++ }`, with Go's
truncated division.  Only meaningful when `limit ≠ 0`; `ListTasks` models
the `limit = 0` panic separately. -/
def goTotalPages (totalCount : Nat) (limit : Int) : Int :=
  let q := Int.tdiv (totalCount : Int) limit
  if Int.tmod (totalCount : Int) limit > 0 then q + 1 else q

/-- `TaskService.ListTasks`: admin callers get the unscoped `FindAll`,
others `FindByUserID` on their own id; then `totalPages` is computed by
dividing by the caller-supplied `filter.Limit` (the repository defaulted
only its own copy), which panics when `filter.Limit = 0`. -/
def listTasks (store : Store) (user : User) (filter : TaskFilter) :
    Except GoPanic TaskListResponse :=
  let r := if user.role = UserRole.admin then findAll store filter
           else findByUserID store user.id filter
  if filter.limit = 0 then Except.error GoPanic.divideByZero
  else
    Except.ok
      { tasks := r.1
        page := filter.page
        limit := filter.limit
        totalCount := r.2
        totalPages := goTotalPages r.2 filter.limit }

/-- The handler-side rejection of an invalid status filter (400). -/
inductive HandlerError where
  | badRequest
deriving DecidableEq

/-- The status-string validation of `TaskHandler.ListTasks`
(`models.TaskStatus(statusStr)` accepted only when `IsValidStatus`). -/
def parseStatus (s : String) : Option TaskStatus :=
  if s = "pending" then some TaskStatus.pending
  else if s = "in_progress" then some TaskStatus.inProgress
  else if s = "completed" then some TaskStatus.completed
  else none

/-- The query-parameter handling of `TaskHandler.ListTasks`: the filter
starts at `{Page: 1, Limit: 10}`; a supplied page overwrites only when
`page > 0`; a supplied limit overwrites only when `0 < limit ≤ 100`;
an unrecognized status string is rejected with a 400.  `none` stands for
an absent or non-integer parameter (`strconv.Atoi` failure). -/
def parseListFilter (pageParam limitParam : Option Int)
    (statusParam : Option String) : Except HandlerError TaskFilter :=
  let f0 : TaskFilter := { status := none, page := 1, limit := 10 }
  let f1 := match pageParam with
    | some p => if 0 < p then { f0 with page := p } else f0
    | none => f0
  let f2 := match limitParam with
    | some l => if 0 < l ∧ l ≤ 100 then { f1 with limit := l } else f1
    | none => f1
  match statusParam with
  | none => Except.ok f2
  | some s =>
    match parseStatus s with
    | some st => Except.ok { f2 with status := some st }
    | none => Except.error HandlerError.badRequest

/-- Outcome tag of one `TaskWorker.autoCompleteTask` run.  The Go method
returns nothing; these tags record which log branch it took.  Only
`updateFailed` corresponds to an error log; the three skip tags are the
silent no-op branches. -/
inductive WorkerOutcome where
  | completedTask
  | skippedMissing
  | skippedStatus
  | skippedYoung
  | updateFailed
deriving DecidableEq

/-- `TaskWorker.autoCompleteTask`: re-fetch the record (missing record is
a silent skip), re-check the status, recompute the threshold
`now - window` and re-check the age strictly, and only then call
`UpdateStatus(id, completed)`. -/
def autoCompleteTask (store : Store) (taskID : Nat) (now window : Int) :
    Store × WorkerOutcome :=
  match findByID store taskID with
  | Except.error _ => (store, WorkerOutcome.skippedMissing)
  | Except.ok task =>
    if task.status = TaskStatus.pending ∨ task.status = TaskStatus.inProgress then
      if task.createdAt < now - window then
        match updateStatus store taskID TaskStatus.completed now with
        | Except.ok store' => (store', WorkerOutcome.completedTask)
        | Except.error _ => (store, WorkerOutcome.updateFailed)
      else (store, WorkerOutcome.skippedYoung)
    else (store, WorkerOutcome.skippedStatus)

/-- The non-blocking send of `checkAndQueueTasks`
(`select { case w.taskChannel <- task.ID: ... default: drop }`) on the
channel of capacity 100 created by `NewTaskWorker`: append when the
buffer has room, silently drop otherwise. -/
def enqueue (queue : List Nat) (id : Nat) : List Nat :=
  if queue.length < 100 then queue ++ [id] else queue

/-- `TaskWorker.checkAndQueueTasks` at a given recomputed threshold:
scan for eligible records and offer each id to the bounded queue in
order. -/
def checkAndQueueTasks (store : Store) (threshold : Int)
    (queue : List Nat) : List Nat :=
  ((findPendingTasks store threshold).map Task.id).foldl enqueue queue

/-- Queue-level state of the worker subsystem (`TaskWorker.Start` plus
its three `processTasksFromChannel` goroutines): whether the shared
context is cancelled, whether the scanner has closed the channel, the
buffered ids, how many scans have run, how many worker goroutines are
still alive, and the ids workers have received (each received id is then
handed to `autoCompleteTask`, modelled separately). -/
structure WorkerSys where
  cancelled : Bool
  closed : Bool
  queue : List Nat
  scans : Nat
  workersActive : Nat
  processed : List Nat
deriving DecidableEq

/-- Events of the worker subsystem. -/
inductive WEvent where
  | tick (store : Store) (threshold : Int)
  | cancelSignal
  | closeQueue
  | recv (id : Nat)
  | exitClosed
  | exitCancelled
deriving DecidableEq

/-- Small-step transitions of the worker subsystem, with Go `select`
nondeterminism: while the scanner loop is alive (queue not yet closed) a
tick may run a scan, and once cancellation fires the scanner may take the
`ctx.Done()` branch, closing the channel and stopping.  A live worker may
receive a buffered id (buffered values remain receivable after close),
may observe the closed empty channel (`ok == false`) and exit, or — as
soon as the context is cancelled — may take its own `ctx.Done()` branch
and exit regardless of the buffer. -/
inductive WStep : WEvent → WorkerSys → WorkerSys → Prop where
  | tick (s : WorkerSys) (store : Store) (threshold : Int)
      (hclosed : s.closed = false) :
      WStep (WEvent.tick store threshold) s
        { s with queue := checkAndQueueTasks store threshold s.queue
                 scans := s.scans + 1 }
  | cancelSignal (s : WorkerSys) (h : s.cancelled = false) :
      WStep WEvent.cancelSignal s { s with cancelled := true }
  | closeQueue (s : WorkerSys) (hcanc : s.cancelled = true)
      (hclosed : s.closed = false) :
      WStep WEvent.closeQueue s { s with closed := true }
  | recv (s : WorkerSys) (id : Nat) (rest : List Nat)
      (hq : s.queue = id :: rest) (hw : 0 < s.workersActive) :
      WStep (WEvent.recv id) s
        { s with queue := rest, processed := s.processed ++ [id] }
  | exitClosed (s : WorkerSys) (hclosed : s.closed = true)
      (hq : s.queue = []) (hw : 0 < s.workersActive) :
      WStep WEvent.exitClosed s { s with workersActive := s.workersActive - 1 }
  | exitCancelled (s : WorkerSys) (hcanc : s.cancelled = true)
      (hw : 0 < s.workersActive) :
      WStep WEvent.exitCancelled s
        { s with workersActive := s.workersActive - 1 }

/-- Sample pending task, owned by user 7, created at time 0. -/
def sampleA : Task :=
  { id := 1, userID := 7, title := "a", description := "",
    status := TaskStatus.pending, createdAt := 0, updatedAt := 0 }

/-- Sample completed task, owned by user 7, created at time 3. -/
def sampleB : Task :=
  { id := 2, userID := 7, title := "b", description := "",
    status := TaskStatus.completed, createdAt := 3, updatedAt := 4 }

/-- Sample in-progress task, owned by user 9, created at time 5. -/
def sampleC : Task :=
  { id := 3, userID := 9, title := "c", description := "",
    status := TaskStatus.inProgress, createdAt := 5, updatedAt := 5 }

/-- Sample store holding the three sample tasks. -/
def sampleStore : Store := [sampleB, sampleA, sampleC]

/-- Non-admin user 7. -/
def sampleOwner : User :=
  { id := 7, email := "o@x", username := "o", role := UserRole.user }

/-- Non-admin user 9. -/
def sampleOther : User :=
  { id := 9, email := "p@x", username := "p", role := UserRole.user }

/-- Admin user 0. -/
def sampleAdmin : User :=
  { id := 0, email := "a@x", username := "a", role := UserRole.admin }

/-! Helper lemmas. -/

theorem find?_some_any {store : Store} {id : Nat} {t : Task}
    (hfind : store.find? (fun x => decide (x.id = id)) = some t) :
    store.any (fun x => decide (x.id = id)) = true := by
  induction store with
  | nil => simp [List.find?] at hfind
  | cons u us ih =>
    simp only [List.find?] at hfind
    cases hpu : decide (u.id = id) with
    | true => simp [List.any_cons, hpu]
    | false =>
      rw [hpu] at hfind
      simp [List.any_cons, hpu, ih hfind]

theorem autoCompleteTask_found {store : Store} {taskID : Nat} {t : Task}
    (now window : Int)
    (hfind : store.find? (fun x => decide (x.id = taskID)) = some t) :
    autoCompleteTask store taskID now window =
      (if t.status = TaskStatus.pending ∨ t.status = TaskStatus.inProgress then
        if t.createdAt < now - window then
          match updateStatus store taskID TaskStatus.completed now with
          | Except.ok store' => (store', WorkerOutcome.completedTask)
          | Except.error _ => (store, WorkerOutcome.updateFailed)
        else (store, WorkerOutcome.skippedYoung)
      else (store, WorkerOutcome.skippedStatus)) := by
  simp only [autoCompleteTask, findByID, hfind]

/-- C1: for a dequeued identifier whose record exists, the worker calls
`updateStatus(id, completed)` exactly when the record's status is still
`pending` or `in_progress` and its creation time is strictly before the
recomputed threshold `now - window`; in every other case (in particular
an already-`completed` record) it leaves the store untouched — so
`updated_at` is unchanged — completes nothing and reports no error, and
re-running auto-completion on a `completed` record is a no-op. -/
theorem autoComplete_revalidates (store : Store) (taskID : Nat)
    (now window : Int) (t : Task)
    (hfind : store.find? (fun x => decide (x.id = taskID)) = some t) :
    ((t.status = TaskStatus.pending ∨ t.status = TaskStatus.inProgress) ∧
        t.createdAt < now - window →
      updateStatus store taskID TaskStatus.completed now =
        Except.ok (autoCompleteTask store taskID now window).1 ∧
      (autoCompleteTask store taskID now window).2 =
        WorkerOutcome.completedTask) ∧
    (¬((t.status = TaskStatus.pending ∨ t.status = TaskStatus.inProgress) ∧
        t.createdAt < now - window) →
      (autoCompleteTask store taskID now window).1 = store ∧
      (autoCompleteTask store taskID now window).2 ≠
        WorkerOutcome.completedTask ∧
      (autoCompleteTask store taskID now window).2 ≠
        WorkerOutcome.updateFailed) := by
  have hup : updateStatus store taskID TaskStatus.completed now =
      Except.ok (setStatusFirst store taskID TaskStatus.completed now) := by
    simp [updateStatus, find?_some_any hfind]
  rw [autoCompleteTask_found now window hfind]
  constructor
  · rintro ⟨hst, hage⟩
    rw [if_pos hst, if_pos hage, hup]
    exact ⟨rfl, rfl⟩
  · intro hne
    by_cases hst : t.status = TaskStatus.pending ∨ t.status = TaskStatus.inProgress
    · have hage : ¬t.createdAt < now - window := fun hage => hne ⟨hst, hage⟩
      rw [if_pos hst, if_neg hage]
      exact ⟨rfl, by simp, by simp⟩
    · rw [if_neg hst]
      exact ⟨rfl, by simp, by simp⟩

/-- Witness for C1: in the sample store, task 1 (pending, created at 0)
is auto-completed at time 20 with window 5, and task 2 (already
completed) is left untouched with a silent skip. -/
theorem autoComplete_revalidates_witness :
    (sampleStore.find? (fun x => decide (x.id = 1)) = some sampleA ∧
      updateStatus sampleStore 1 TaskStatus.completed 20 =
        Except.ok (autoCompleteTask sampleStore 1 20 5).1 ∧
      (autoCompleteTask sampleStore 1 20 5).2 =
        WorkerOutcome.completedTask) ∧
    (sampleStore.find? (fun x => decide (x.id = 2)) = some sampleB ∧
      (autoCompleteTask sampleStore 2 20 5).1 = sampleStore ∧
      (autoCompleteTask sampleStore 2 20 5).2 ≠
        WorkerOutcome.completedTask) :=
  ⟨⟨by decide,
    (autoComplete_revalidates sampleStore 1 20 5 sampleA (by decide)).1
      ⟨Or.inl (by decide), by decide⟩⟩,
   ⟨by decide,
    ((autoComplete_revalidates sampleStore 2 20 5 sampleB (by decide)).2
      (by decide)).1,
    (((autoComplete_revalidates sampleStore 2 20 5 sampleB (by decide)).2
      (by decide)).2).1⟩⟩

/-- C2: if the record referenced by a dequeued identifier no longer
exists, the worker treats the not-found result as a silent skip: the
store is unchanged and the outcome is the silent `skippedMissing` branch
(the Go method returns nothing, so no error reaches any caller). -/
theorem autoComplete_missing_silent_skip (store : Store) (taskID : Nat)
    (now window : Int)
    (hfind : store.find? (fun x => decide (x.id = taskID)) = none) :
    autoCompleteTask store taskID now window =
      (store, WorkerOutcome.skippedMissing) := by
  simp only [autoCompleteTask, findByID, hfind]

/-- Witness for C2: identifier 99 is absent from the sample store and the
worker's run at time 20 with window 5 is a silent no-op. -/
theorem autoComplete_missing_silent_skip_witness :
    sampleStore.find? (fun x => decide (x.id = 99)) = none ∧
    autoCompleteTask sampleStore 99 20 5 =
      (sampleStore, WorkerOutcome.skippedMissing) :=
  ⟨by decide, autoComplete_missing_silent_skip sampleStore 99 20 5 (by decide)⟩

/-- C6: the eligibility scan returns exactly the records whose status is
`pending` or `in_progress` and whose creation time is strictly before the
threshold, sorted by creation time ascending; `completed` records and
records created at or after the threshold are never returned. -/
theorem findPendingTasks_spec (store : Store) (thr : Int) :
    (∀ t, t ∈ findPendingTasks store thr ↔
      t ∈ store ∧
        (t.status = TaskStatus.pending ∨ t.status = TaskStatus.inProgress) ∧
        t.createdAt < thr) ∧
    List.Sorted createdAscend (findPendingTasks store thr) ∧
    (∀ t, t ∈ findPendingTasks store thr →
      t.status ≠ TaskStatus.completed ∧ t.createdAt < thr) := by
  have hmem : ∀ t, t ∈ findPendingTasks store thr ↔
      t ∈ store ∧
        (t.status = TaskStatus.pending ∨ t.status = TaskStatus.inProgress) ∧
        t.createdAt < thr := by
    intro t
    unfold findPendingTasks
    rw [List.mem_insertionSort, List.mem_filter]
    simp [eligibleB]
  refine ⟨hmem, List.sorted_insertionSort _ _, ?_⟩
  intro t ht
  rcases (hmem t).mp ht with ⟨_, hst, hage⟩
  refine ⟨?_, hage⟩
  rcases hst with h | h <;> rw [h] <;> decide

/-- Witness for C6: with the sample store and threshold 10 the scan
returns the pending and in-progress tasks (and only those), so in
particular the in-progress task 3 is a member. -/
theorem findPendingTasks_spec_witness :
    sampleC ∈ findPendingTasks sampleStore 10 :=
  ((findPendingTasks_spec sampleStore 10).1 sampleC).mpr
    ⟨by decide, Or.inr (by decide), by decide⟩

/-- Folding the non-blocking offer over any id list keeps the queue at or
below the channel capacity of 100. -/
theorem foldl_enqueue_length (ids : List Nat) :
    ∀ q : List Nat, q.length ≤ 100 → (ids.foldl enqueue q).length ≤ 100 := by
  induction ids with
  | nil => intro q h; exact h
  | cons i rest ih =>
    intro q h
    apply ih
    unfold enqueue
    split
    · rw [List.length_append]
      simp only [List.length_cons, List.length_nil]
      omega
    · exact h

/-- C7: starting from a queue within the capacity bound, a scan leaves
the queue within the 100-identifier bound; an offer to a full queue is
abandoned, returning the queue unchanged (the total function neither
blocks nor errors); and a record that stayed `pending`/`in_progress` with
creation time before the old threshold is returned again by any later
scan whose threshold is at least the old one. -/
theorem queue_capacity_and_rediscovery (store : Store) (thr : Int)
    (q : List Nat) (hq : q.length ≤ 100) :
    (checkAndQueueTasks store thr q).length ≤ 100 ∧
    (∀ id, q.length = 100 → enqueue q id = q) ∧
    (∀ t (thr' : Int), t ∈ store →
      (t.status = TaskStatus.pending ∨ t.status = TaskStatus.inProgress) →
      t.createdAt < thr → thr ≤ thr' →
      t ∈ findPendingTasks store thr') := by
  refine ⟨foldl_enqueue_length _ q hq, ?_, ?_⟩
  · intro id hfull
    unfold enqueue
    rw [if_neg (by omega)]
  · intro t thr' hmem hst hage hle
    exact ((findPendingTasks_spec store thr').1 t).mpr
      ⟨hmem, hst, lt_of_lt_of_le hage hle⟩

/-- Witness for C7: a full queue of 100 entries stays unchanged and
within bound after a scan of the sample store, the offer of id 6 to it is
dropped, and the pending sample task is rediscovered at the later
threshold 11. -/
theorem queue_capacity_and_rediscovery_witness :
    (List.replicate 100 5).length ≤ 100 ∧
    (checkAndQueueTasks sampleStore 10 (List.replicate 100 5)).length ≤ 100 ∧
    enqueue (List.replicate 100 5) 6 = List.replicate 100 5 ∧
    sampleA ∈ findPendingTasks sampleStore 11 := by
  have h := queue_capacity_and_rediscovery sampleStore 10
    (List.replicate 100 5) (by decide)
  exact ⟨by decide, h.1, h.2.1 6 (by decide),
    h.2.2 sampleA 11 (by decide) (Or.inl (by decide)) (by decide) (by decide)⟩

/-- Rewriting by id walks past every non-matching record and rewrites the
first match in place. -/
theorem setStatusFirst_append (pre : Store) (t : Task) (post : Store)
    (id : Nat) (st : TaskStatus) (now : Int)
    (hpre : ∀ u ∈ pre, u.id ≠ id) (ht : t.id = id) :
    setStatusFirst (pre ++ t :: post) id st now =
      pre ++ { t with status := st, updatedAt := now } :: post := by
  induction pre with
  | nil => simp [setStatusFirst, ht]
  | cons u us ih =>
    have hu : ¬u.id = id := hpre u (List.mem_cons_self u us)
    simp only [List.cons_append, setStatusFirst, if_neg hu, List.cons.injEq,
      true_and]
    exact ih fun v hv => hpre v (List.mem_cons_of_mem u hv)

/-- C8: `updateStatus(id, newStatus)` rewrites the record with that
identifier — its status becomes `newStatus`, its `updated_at` becomes the
update time, every other record and every other field is untouched —
and when no record carries the identifier it fails with the not-found
error (the store value is left as it was; the operation is a single store
action, so the sequential model renders its atomicity trivially). -/
theorem updateStatus_spec (store : Store) (id : Nat) (st : TaskStatus)
    (now : Int) :
    ((∀ t ∈ store, t.id ≠ id) →
      updateStatus store id st now = Except.error RepoError.notFound) ∧
    (∀ pre t post, store = pre ++ t :: post → (∀ u ∈ pre, u.id ≠ id) →
      t.id = id →
      updateStatus store id st now =
        Except.ok (pre ++ { t with status := st, updatedAt := now } :: post)) := by
  constructor
  · intro habsent
    have hany : store.any (fun t => decide (t.id = id)) = false := by
      rw [List.any_eq_false]
      intro t ht
      simp [habsent t ht]
    simp [updateStatus, hany]
  · rintro pre t post rfl hpre ht
    have hany : (pre ++ t :: post).any (fun x => decide (x.id = id)) = true :=
      List.any_eq_true.mpr
        ⟨t, List.mem_append_right pre (List.mem_cons_self t post), by simp [ht]⟩
    simp only [updateStatus, hany, if_pos]
    rw [setStatusFirst_append pre t post id st now hpre ht]

/-- Witness for C8: updating task 3 of the sample store at time 9 rewrites
exactly that record's status and `updated_at`, and updating the absent
id 99 fails with the not-found error. -/
theorem updateStatus_spec_witness :
    updateStatus sampleStore 3 TaskStatus.completed 9 =
      Except.ok [sampleB, sampleA,
        { sampleC with status := TaskStatus.completed, updatedAt := 9 }] ∧
    updateStatus sampleStore 99 TaskStatus.completed 9 =
      Except.error RepoError.notFound :=
  ⟨(updateStatus_spec sampleStore 3 TaskStatus.completed 9).2
      [sampleB, sampleA] sampleC [] (by decide) (by decide) (by decide),
   (updateStatus_spec sampleStore 99 TaskStatus.completed 9).1 (by decide)⟩

/-- C9: on an existing record, a non-admin caller who is not the owner
gets the distinct authorization error — not the not-found error — from
both the point lookup and the delete, while the owner or an admin
succeeds (the delete removing the record). -/
theorem ownership_check_spec (store : Store) (taskID : Nat) (user : User)
    (t : Task)
    (hfind : store.find? (fun x => decide (x.id = taskID)) = some t) :
    (user.role ≠ UserRole.admin → t.userID ≠ user.id →
      getTask store taskID user = Except.error ServiceError.unauthorized ∧
      deleteTask store taskID user = Except.error ServiceError.unauthorized ∧
      ServiceError.unauthorized ≠ ServiceError.notFound) ∧
    (user.role = UserRole.admin ∨ t.userID = user.id →
      getTask store taskID user = Except.ok t ∧
      deleteTask store taskID user = Except.ok (removeFirst store taskID)) := by
  have hdel : deleteByID store taskID = Except.ok (removeFirst store taskID) := by
    simp [deleteByID, find?_some_any hfind]
  constructor
  · intro hrole howner
    refine ⟨?_, ?_, by decide⟩
    · simp only [getTask, findByID, hfind, if_pos (And.intro hrole howner)]
    · simp only [deleteTask, findByID, hfind, if_pos (And.intro hrole howner)]
  · intro h
    have hcond : ¬(user.role ≠ UserRole.admin ∧ t.userID ≠ user.id) := by
      rcases h with h | h
      · exact fun hc => hc.1 h
      · exact fun hc => hc.2 h
    refine ⟨?_, ?_⟩
    · simp only [getTask, findByID, hfind, if_neg hcond]
    · simp only [deleteTask, findByID, hfind, if_neg hcond, hdel]

/-- Witness for C9: task 1 belongs to user 7; the non-admin user 9 gets
the authorization error from lookup and delete, while the admin succeeds
on both. -/
theorem ownership_check_spec_witness :
    (getTask sampleStore 1 sampleOther =
        Except.error ServiceError.unauthorized ∧
      deleteTask sampleStore 1 sampleOther =
        Except.error ServiceError.unauthorized ∧
      ServiceError.unauthorized ≠ ServiceError.notFound) ∧
    (getTask sampleStore 1 sampleAdmin = Except.ok sampleA ∧
      deleteTask sampleStore 1 sampleAdmin =
        Except.ok (removeFirst sampleStore 1)) :=
  ⟨(ownership_check_spec sampleStore 1 sampleOther sampleA (by decide)).1
      (by decide) (by decide),
   (ownership_check_spec sampleStore 1 sampleAdmin sampleA (by decide)).2
      (Or.inl (by decide))⟩

/-- Integer division with a remainder bump computes the ceiling:
for positive `m`, `c / m` plus one exactly when `m` does not divide `c`
equals `(c + m - 1) / m`. -/
theorem natCeilDiv (c m : Nat) (hm : 0 < m) :
    (c + m - 1) / m = c / m + (if c % m = 0 then 0 else 1) := by
  obtain ⟨q, r, hr, rfl⟩ : ∃ q r, r < m ∧ c = m * q + r :=
    ⟨c / m, c % m, Nat.mod_lt _ hm, (Nat.div_add_mod c m).symm⟩
  rw [Nat.mul_add_div hm, Nat.mul_add_mod, Nat.mod_eq_of_lt hr,
    Nat.div_eq_of_lt hr]
  rcases Nat.eq_zero_or_pos r with rfl | hrpos
  · have h1 : m * q + 0 + m - 1 = m * q + (m - 1) := by omega
    rw [h1, Nat.mul_add_div hm, Nat.div_eq_of_lt (show m - 1 < m by omega)]
    simp
  · have hne : r ≠ 0 := by omega
    have h1 : m * q + r + m - 1 = m * (q + 1) + (r - 1) := by
      have h2 : m * (q + 1) = m * q + m := Nat.mul_succ m q
      omega
    rw [h1, Nat.mul_add_div hm, Nat.div_eq_of_lt (show r - 1 < m by omega),
      if_neg hne]

/-- The Go total-pages computation agrees with the ceiling formula for
any positive limit. -/
theorem goTotalPages_eq (c : Nat) (l : Int) (hl : 0 < l) :
    goTotalPages c l = (((c + l.toNat - 1) / l.toNat : Nat) : Int) := by
  obtain ⟨m, rfl, hm⟩ : ∃ m : Nat, l = (m : Int) ∧ 0 < m :=
    ⟨l.toNat, by omega, by omega⟩
  have htn : ((m : Int)).toNat = m := by omega
  have htd : Int.tdiv (c : Int) (m : Int) = ((c / m : Nat) : Int) := rfl
  have htm : Int.tmod (c : Int) (m : Int) = ((c % m : Nat) : Int) := rfl
  unfold goTotalPages
  rw [htn, htd, htm, natCeilDiv c m hm]
  by_cases h0 : c % m = 0
  · simp [h0]
  · have hpos : ((c % m : Nat) : Int) > 0 := by omega
    rw [if_pos hpos, if_neg h0]
    omega

/-- C4: for every limit strictly greater than zero the total-pages value
is the ceiling of totalCount over limit, computed purely by integer
division with a remainder bump (the model's `goTotalPages` is exactly the
Go integer computation), and it is 0 when totalCount is 0; the listing
operation reports exactly this value for the count it returns. -/
theorem listTasks_totalPages_ceil :
    (∀ (totalCount : Nat) (limit : Int), 0 < limit →
      goTotalPages totalCount limit =
        (((totalCount + limit.toNat - 1) / limit.toNat : Nat) : Int) ∧
      (totalCount = 0 → goTotalPages totalCount limit = 0)) ∧
    (∀ (store : Store) (user : User) (filter : TaskFilter),
      0 < filter.limit →
      ∃ resp, listTasks store user filter = Except.ok resp ∧
        resp.totalPages = goTotalPages resp.totalCount filter.limit) := by
  constructor
  · intro c l hl
    refine ⟨goTotalPages_eq c l hl, ?_⟩
    rintro rfl
    rw [goTotalPages_eq 0 l hl,
      Nat.div_eq_of_lt (show 0 + l.toNat - 1 < l.toNat by omega)]
    rfl
  · intro store user filter hl
    unfold listTasks
    rw [if_neg (show ¬filter.limit = 0 by omega)]
    exact ⟨_, rfl, rfl⟩

/-- Witness for C4: 15 records at limit 10 make 2 pages, both through the
pure computation and through the listing response of the sample store. -/
theorem listTasks_totalPages_ceil_witness :
    goTotalPages 15 10 =
      (((15 + (10 : Int).toNat - 1) / (10 : Int).toNat : Nat) : Int) ∧
    (∃ resp,
      listTasks sampleStore sampleOwner
        { status := none, page := 1, limit := 10 } = Except.ok resp ∧
      resp.totalPages = goTotalPages resp.totalCount (10 : Int)) :=
  ⟨(listTasks_totalPages_ceil.1 15 10 (by decide)).1,
   listTasks_totalPages_ceil.2 sampleStore sampleOwner
     { status := none, page := 1, limit := 10 } (by decide)⟩

/-- Every filter the handler passes on has a limit in 1..100: the field
starts at 10 and is overwritten only by a supplied value in 1..100. -/
theorem parseListFilter_limit (p l : Option Int) (st : Option String)
    (f : TaskFilter) (h : parseListFilter p l st = Except.ok f) :
    1 ≤ f.limit ∧ f.limit ≤ 100 := by
  unfold parseListFilter at h
  rcases p with _ | pv <;> rcases l with _ | lv <;> rcases st with _ | sv <;>
    simp only [] at h <;>
    repeat' split at h
  all_goals first
    | exact Except.noConfusion h
    | (rw [Except.ok.injEq] at h; subst h; constructor <;> simp_all <;> omega)

/-- C5: the store substitutes `page = 1` for a non-positive page and
`limit = 10` for a non-positive limit, and serves the window starting at
`skip = (page - 1) * limit` of the matching records (sorted newest
first), with the total count unaffected by the pagination; and the
handler clamps the limit into 1..100 before it reaches the store. -/
theorem pagination_defaults (store : Store) (userID : Nat)
    (filter : TaskFilter) :
    ((findByUserID store userID filter).1 =
      ((List.insertionSort createdDescend
          (store.filter (userQuery userID filter.status))).drop
        (((max filter.page 1 - 1) *
          (if filter.limit ≤ 0 then 10 else filter.limit)).toNat)).take
        ((if filter.limit ≤ 0 then 10 else filter.limit).toNat ) ∧
     (findByUserID store userID filter).2 =
       (store.filter (userQuery userID filter.status)).length) ∧
    (∀ p l st f, parseListFilter p l st = Except.ok f →
      1 ≤ f.limit ∧ f.limit ≤ 100) := by
  have hpage : (if filter.page < 1 then 1 else filter.page)
      = max filter.page 1 := by
    split <;> omega
  have hlimit : (if filter.limit < 1 then (10 : Int) else filter.limit)
      = (if filter.limit ≤ 0 then 10 else filter.limit) := by
    by_cases h : filter.limit < 1
    · rw [if_pos h, if_pos (by omega)]
    · rw [if_neg h, if_neg (by omega)]
  refine ⟨?_, fun p l st f h => parseListFilter_limit p l st f h⟩
  simp only [findByUserID]
  rw [hpage, hlimit]
  exact ⟨rfl, trivial⟩

/-- Witness for C5: a request with non-positive page 0 and non-positive
limit -3 is served the window at skip 0 with the default limit 10, and
the handler turns the out-of-range limit parameter 250 into the default
10, inside 1..100. -/
theorem pagination_defaults_witness :
    (findByUserID sampleStore 7 { status := none, page := 0, limit := -3 }).1 =
      ((List.insertionSort createdDescend
          (sampleStore.filter (userQuery 7 none))).drop 0).take 10 ∧
    (1 ≤ ({ status := none, page := 2, limit := 10 } : TaskFilter).limit ∧
      ({ status := none, page := 2, limit := 10 } : TaskFilter).limit ≤ 100) :=
  ⟨(pagination_defaults sampleStore 7
      { status := none, page := 0, limit := -3 }).1.1,
   (pagination_defaults sampleStore 7
      { status := none, page := 0, limit := -3 }).2
     (some 2) (some 250) none _ (by decide)⟩

/-- C10: `ListTasks` divides by the caller-supplied limit before any
defaulting — when the filter's limit is 0 the division panics even
though the repository call it just made used its own defaulted copy
(whose window is capped at the default 10) — so `ListTasks` is
panic-free under the precondition `limit ≥ 1`, which the handler
establishes by producing only limits ≥ 1. -/
theorem listTasks_limit_safety (store : Store) (user : User)
    (filter : TaskFilter) :
    (filter.limit = 0 →
      listTasks store user filter = Except.error GoPanic.divideByZero) ∧
    (1 ≤ filter.limit →
      ∃ resp, listTasks store user filter = Except.ok resp) ∧
    (filter.limit < 1 →
      (findByUserID store user.id filter).1.length ≤ 10) ∧
    (∀ p l st f, parseListFilter p l st = Except.ok f → 1 ≤ f.limit) := by
  refine ⟨?_, ?_, ?_, fun p l st f h => (parseListFilter_limit p l st f h).1⟩
  · intro h0
    simp only [listTasks]
    rw [if_pos h0]
  · intro h1
    simp only [listTasks]
    rw [if_neg (show ¬filter.limit = 0 by omega)]
    exact ⟨_, rfl⟩
  · intro hlt
    simp only [findByUserID]
    rw [if_pos hlt]
    exact le_trans (List.length_take_le _ _) (by decide)

/-- Witness for C10: on the sample store, a service-level call with
limit 0 panics with division by zero, the same call with limit 10
succeeds, the repository window under limit -3 stays within 10 records,
and the handler maps an absent limit parameter to the safe default. -/
theorem listTasks_limit_safety_witness :
    listTasks sampleStore sampleOwner { status := none, page := 1, limit := 0 } =
      Except.error GoPanic.divideByZero ∧
    (∃ resp, listTasks sampleStore sampleOwner
      { status := none, page := 1, limit := 10 } = Except.ok resp) ∧
    (findByUserID sampleStore 7
      { status := none, page := 1, limit := -3 }).1.length ≤ 10 ∧
    1 ≤ ({ status := none, page := 1, limit := 10 } : TaskFilter).limit :=
  ⟨(listTasks_limit_safety sampleStore sampleOwner
      { status := none, page := 1, limit := 0 }).1 (by decide),
   (listTasks_limit_safety sampleStore sampleOwner
      { status := none, page := 1, limit := 10 }).2.1 (by decide),
   (listTasks_limit_safety sampleStore sampleOwner
      { status := none, page := 1, limit := -3 }).2.2.1 (by decide),
   (listTasks_limit_safety sampleStore sampleOwner
      { status := none, page := 1, limit := 10 }).2.2.2
     none none none _ (by decide)⟩

/-- C3 counterexample: the claim that on cancellation every worker drains
the identifiers still buffered in the queue before exiting is false of
the code.  Each worker's receive loop is a `select` between `ctx.Done()`
and the channel; once the context is cancelled the `ctx.Done()` case is
always ready, so a worker may exit through it while identifiers are still
buffered.  The trace below is derivable in the embedded step relation:
the signal fires with id 7 buffered, the scanner closes the queue, and
all three workers exit through the cancellation branch, leaving id 7
buffered and never processed. -/
theorem worker_drain_counterexample :
    WStep WEvent.cancelSignal ⟨false, false, [7], 5, 3, []⟩
      ⟨true, false, [7], 5, 3, []⟩ ∧
    WStep WEvent.closeQueue ⟨true, false, [7], 5, 3, []⟩
      ⟨true, true, [7], 5, 3, []⟩ ∧
    WStep WEvent.exitCancelled ⟨true, true, [7], 5, 3, []⟩
      ⟨true, true, [7], 5, 2, []⟩ ∧
    WStep WEvent.exitCancelled ⟨true, true, [7], 5, 2, []⟩
      ⟨true, true, [7], 5, 1, []⟩ ∧
    WStep WEvent.exitCancelled ⟨true, true, [7], 5, 1, []⟩
      ⟨true, true, [7], 5, 0, []⟩ ∧
    (⟨true, true, [7], 5, 0, []⟩ : WorkerSys).workersActive = 0 ∧
    (⟨true, true, [7], 5, 0, []⟩ : WorkerSys).queue = [7] ∧
    7 ∉ (⟨true, true, [7], 5, 0, []⟩ : WorkerSys).processed :=
  ⟨WStep.cancelSignal _ rfl, WStep.closeQueue _ rfl rfl,
   WStep.exitCancelled _ rfl (by decide), WStep.exitCancelled _ rfl (by decide),
   WStep.exitCancelled _ rfl (by decide), rfl, rfl, by decide⟩

/-- C3 amended: once the scanner observes cancellation it closes the
queue, and from any state with the queue closed no further scan can occur
(the scan count is frozen and the queue stays closed); cancellation is
permanent; every identifier a worker receives — including from the
closed queue's buffer — is processed; and a worker exiting through the
closed-queue receive path does so only with the buffer drained.  But a
worker may instead exit through the cancellation branch of its `select`
while identifiers are still buffered, discarding them (the
counterexample), and the scanner may still run scans between the signal
and its observation of it. -/
theorem worker_shutdown_behavior (l : WEvent) (s s' : WorkerSys)
    (hstep : WStep l s s') :
    (s.closed = true →
      (∀ store thr, l ≠ WEvent.tick store thr) ∧ s'.closed = true ∧
        s'.scans = s.scans) ∧
    (s.cancelled = true → s'.cancelled = true) ∧
    (l = WEvent.exitClosed → s.closed = true ∧ s.queue = []) ∧
    (∀ id, l = WEvent.recv id →
      s'.processed = s.processed ++ [id] ∧ s.queue.head? = some id) ∧
    (l = WEvent.closeQueue → s.cancelled = true ∧ s'.closed = true) := by
  cases hstep <;> simp_all

/-- Witness for the amended C3 theorem: a concrete closed-queue exit step
whose pre-state must have an empty buffer. -/
theorem worker_shutdown_behavior_witness :
    WStep WEvent.exitClosed ⟨true, true, [], 4, 2, [9]⟩
      ⟨true, true, [], 4, 1, [9]⟩ ∧
    ((⟨true, true, [], 4, 2, [9]⟩ : WorkerSys).closed = true ∧
      (⟨true, true, [], 4, 2, [9]⟩ : WorkerSys).queue = []) := by
  have hstep : WStep WEvent.exitClosed
      (⟨true, true, [], 4, 2, [9]⟩ : WorkerSys)
      ⟨true, true, [], 4, 1, [9]⟩ := WStep.exitClosed _ rfl rfl (by decide)
  exact ⟨hstep, (worker_shutdown_behavior _ _ _ hstep).2.2.1 rfl⟩

end TaskApi
